import Mathlib

/-! Shallow embedding of `src/upnp-portmapping.go` (package `main` of
ilyaglow/portmapping): SSDP discovery of a UPnP gateway, deduplication and
selection of discovery responses, the location rewrite, and the bounded
port-mapping enumeration loop.

Go strings are modelled as `List Char`; external collaborators (the httpu
UDP transport, the SOAP transport, goupnp's marshaller) are modelled as
explicit function parameters or, where their code is not in the repository,
from the spec (see the doc comments).
-/

deriving instance DecidableEq for Except

/-- Helper for `splitOnChar`: prepend a character to the first piece of an
already-computed split result. -/
def consHead (x : Char) : List (List Char) → List (List Char)
  | [] => [[x]]
  | y :: ys => (x :: y) :: ys

/-- Go `strings.Split(s, sep)` for a single-character separator `sep`
(the program only ever splits on ":"): the list of maximal pieces of `s`
separated by `c`.  `strings.Split("", ":") = [""]` and separators at the
ends produce empty pieces, exactly as in Go. -/
def splitOnChar (c : Char) : List Char → List (List Char)
  | [] => [[]]
  | x :: xs => if x = c then [] :: splitOnChar c xs else consHead x (splitOnChar c xs)

/-- Model of a parsed URL (Go standard library `net/url.URL`, external to the
repository) restricted to the components this program reads or writes:
scheme, host and path. -/
structure URL where
  scheme : List Char
  host : List Char
  path : List Char
  deriving DecidableEq, Repr

/-- Model of `url.URL.String()` on the modelled components, used by
`ssdpRawSearch` as the fallback deduplication key (`location.String()`,
line 94). -/
def URL.render (u : URL) : List Char :=
  u.scheme ++ "://".data ++ u.host ++ u.path

/-- Constant `maxWaitSeconds` (line 20). -/
def maxWaitSeconds : Nat := 5

/-- Constant `methodSearch` (line 21). -/
def methodSearch : List Char := "M-SEARCH".data

/-- Constant `searchTarget` (line 22). -/
def searchTarget : List Char := "upnp:rootdevice".data

/-- Constant `ssdpDiscover` (line 23). -/
def ssdpDiscover : List Char := "ssdp:discover".data

/-- Constant `numSends` (line 24). -/
def numSends : Nat := 2

/-- The M-SEARCH request value built by `ssdpRawSearch` (lines 60-73).
`starURI` is the `Opaque` component of the request URL, set to `"*"`.
Headers are an association list in source order; the code puts them into the
header map directly, bypassing Go's title-casing, because the discovery
protocol treats header names case-sensitively. -/
structure SSDPRequest where
  method : List Char
  host : List Char
  starURI : List Char
  headers : List (List Char × List Char)
  deriving DecidableEq

/-- Construction of the search request from `ssdpRawSearch` (lines 60-73).
The MX header value is `strconv.FormatInt(int64(maxWaitSeconds), 10)`,
modelled by `Nat.repr`. -/
def searchRequest (host : List Char) : SSDPRequest :=
  { method := methodSearch
    host := host
    starURI := "*".data
    headers := [("HOST".data, host),
                ("MX".data, (Nat.repr maxWaitSeconds).data),
                ("MAN".data, ssdpDiscover),
                ("ST".data, searchTarget)] }

/-- The collection-window timeout passed to `httpu.Do` (line 74), in
milliseconds: `time.Duration(maxWaitSeconds)*time.Second + 100*time.Millisecond`. -/
def searchTimeoutMs : Nat := maxWaitSeconds * 1000 + 100

/-- The send count passed to `httpu.Do` (line 74). -/
def searchNumSends : Nat := numSends

/-- One SSDP discovery response as `ssdpRawSearch` consumes it (lines
79-100).  `location` is the outcome of `response.Location()`: `none` when the
Location header is missing or does not parse, otherwise `some` parsed URL.
`usn` is `response.Header.Get("USN")`; a missing header yields the empty
string, so missing and empty are both the empty list. -/
structure DiscoveryResponse where
  statusCode : Nat
  location : Option URL
  usn : List Char
  deriving DecidableEq

/-- The deduplication key computed at lines 91-95: the USN header when
non-empty, otherwise the parsed location rendered back to a string. -/
def dedupKey (loc : URL) (usn : List Char) : List Char :=
  if usn = [] then loc.render else usn

/-- The key under which a response would be deduplicated, when it passes the
status and location filters: `none` exactly when the response is discarded
before the deduplication step (status not 200, or unusable location). -/
def keyOf (r : DiscoveryResponse) : Option (List Char) :=
  if r.statusCode = 200 then r.location.map (fun loc => dedupKey loc r.usn) else none

/-- The response filter of `ssdpRawSearch` (lines 79-100): drop responses
with status ≠ 200, drop responses without a usable location, key the rest by
USN (or location string when the USN is empty) and keep only the first
response per key.  `seen` is the `seenUsns` set, modelled as the list of keys
already seen. -/
def filterResponses : List DiscoveryResponse → List (List Char) → List DiscoveryResponse
  | [], _ => []
  | r :: rs, seen =>
    if r.statusCode ≠ 200 then filterResponses rs seen
    else
      match r.location with
      | none => filterResponses rs seen
      | some loc =>
        if dedupKey loc r.usn ∈ seen then filterResponses rs seen
        else r :: filterResponses rs (dedupKey loc r.usn :: seen)

/-- The selection step of `ssdpRawSearch` (lines 102-106): error when no
response survived filtering (the message keeps the source's spelling),
otherwise the first retained response. -/
def ssdpSelect (l : List DiscoveryResponse) : Except (List Char) DiscoveryResponse :=
  match filterResponses l [] with
  | [] => .error "No SSDP response avaiable".data
  | r :: _ => .ok r

/-- The location rewrite of `upnpLocation` (lines 47-52): when the parsed
location's host contains a colon, the port taken is element 1 of the
colon-split of the host (`strings.Split(loc.Host, ":")[1]`), joined to the
probed host by `fmt.Sprintf`; otherwise the host becomes the probed host
verbatim.  `getD 1 []` models the index expression; when the host contains a
colon the split has at least two pieces, so the default is never used. -/
def rewriteLocation (host : List Char) (loc : URL) : URL :=
  if ':' ∈ loc.host then
    { loc with host := host ++ ':' :: (splitOnChar ':' loc.host).getD 1 [] }
  else
    { loc with host := host }

/-- The address `upnpLocation` probes (line 34): Go `host+port`, where the
port flag's default value ":1900" already carries the colon. -/
def probeAddress (host port : List Char) : List Char := host ++ port

/-- `PortMappingEntry` (lines 110-119): one NAT port-mapping table row, all
fields carried as strings exactly as decoded from the SOAP reply. -/
structure PortMappingEntry where
  NewRemoteHost : List Char
  NewExternalPort : List Char
  NewProtocol : List Char
  NewInternalPort : List Char
  NewInternalClient : List Char
  NewEnabled : List Char
  NewPortMappingDescription : List Char
  NewLeaseDuration : List Char
  deriving DecidableEq

/-- `portMappingRequest` (lines 121-123): the single-field SOAP request
carrying the encoded index. -/
structure portMappingRequest where
  NewPortMappingIndex : List Char
  deriving DecidableEq

/-- Modelled from the spec: `soap.MarshalUi2` of the external goupnp/soap
library (not under src/), which encodes the index as "the protocol's
unsigned-16 representation" — the decimal string of the value — with an
error channel that cannot fire for a value within the unsigned 16-bit
range. -/
def MarshalUi2 (v : Nat) : Except (List Char) (List Char) :=
  if v < 65536 then .ok (Nat.repr v).data else .error "not a ui2 value".data

/-- `portMappingByIdx` (lines 125-143): marshal the index, build the request
record, and invoke the `GetGenericPortMappingEntry` action.  The SOAP
transport (`conn.SOAPClient.PerformAction` with the fixed service URN and
action name) is an external collaborator, passed in as `perform`; its error
covers network failures, SOAP faults and the end-of-table signal alike. -/
def portMappingByIdx (perform : portMappingRequest → Except (List Char) PortMappingEntry)
    (index : Nat) : Except (List Char) PortMappingEntry :=
  match MarshalUi2 index with
  | .error e => .error e
  | .ok si => perform { NewPortMappingIndex := si }

/-- The enumeration loop of `main` (lines 165-172): `for i := 0; i < 50; i++`
querying each index in turn.  The first error makes the program stop
(`log.Fatal`), reported here as `some` error next to the entries yielded so
far; a run that exhausts the loop bound reports `none`.  `fuel` counts the
remaining iterations, starting at 50. -/
def enumLoop (query : Nat → Except (List Char) PortMappingEntry) :
    Nat → Nat → List PortMappingEntry × Option (List Char)
  | _, 0 => ([], none)
  | i, fuel + 1 =>
    match query i with
    | .error e => ([], some e)
    | .ok pme =>
      let rest := enumLoop query (i + 1) fuel
      (pme :: rest.1, rest.2)

/-- The per-connection body of `main` (lines 160-173): drive
`portMappingByIdx` over indices 0..49 against the connection's SOAP
transport. -/
def mainEnumerate (perform : portMappingRequest → Except (List Char) PortMappingEntry) :
    List PortMappingEntry × Option (List Char) :=
  enumLoop (fun i => portMappingByIdx perform i) 0 50

/-! Lemmas about `splitOnChar`. -/

theorem splitOnChar_not_mem {c : Char} {s : List Char} (h : c ∉ s) :
    splitOnChar c s = [s] := by
  induction s with
  | nil => rfl
  | cons x xs ih =>
    simp only [List.mem_cons, not_or] at h
    rw [splitOnChar, if_neg (Ne.symm h.1), ih h.2, consHead]

theorem splitOnChar_append {c : Char} {h₁ : List Char} (t : List Char) (hc : c ∉ h₁) :
    splitOnChar c (h₁ ++ c :: t) = h₁ :: splitOnChar c t := by
  induction h₁ with
  | nil => rw [List.nil_append, splitOnChar, if_pos rfl]
  | cons x xs ih =>
    simp only [List.mem_cons, not_or] at hc
    rw [List.cons_append, splitOnChar, if_neg (Ne.symm hc.1), ih hc.2, consHead]

/-- C1: for a selected response whose location parsed, when the location's
host has the form `host:port` the rewritten location's host is the probed
host joined with the extracted port and the path is preserved; when the
location's host has no colon, the rewritten host is the probed host verbatim
with no port, path again preserved. -/
theorem rewriteLocation_host_port (probed : List Char) (loc : URL) :
    (∀ h p, loc.host = h ++ ':' :: p → ':' ∉ h → ':' ∉ p →
      (rewriteLocation probed loc).host = probed ++ ':' :: p ∧
      (rewriteLocation probed loc).path = loc.path) ∧
    (':' ∉ loc.host →
      (rewriteLocation probed loc).host = probed ∧
      (rewriteLocation probed loc).path = loc.path) := by
  constructor
  · intro h p hhost hh hp
    have hmem : ':' ∈ loc.host := by rw [hhost]; simp
    rw [rewriteLocation, if_pos hmem, hhost, splitOnChar_append p hh, splitOnChar_not_mem hp]
    exact ⟨rfl, rfl⟩
  · intro hmem
    rw [rewriteLocation, if_neg hmem]
    exact ⟨rfl, rfl⟩

/-- Witness for C1: the spec's own example, probed host "10.0.0.1" and
location "http://192.168.1.1:5000/desc.xml". -/
theorem rewriteLocation_host_port_witness :
    (rewriteLocation "10.0.0.1".data
        { scheme := "http".data, host := "192.168.1.1:5000".data,
          path := "/desc.xml".data }).host = "10.0.0.1:5000".data ∧
    (rewriteLocation "10.0.0.1".data
        { scheme := "http".data, host := "192.168.1.1:5000".data,
          path := "/desc.xml".data }).path = "/desc.xml".data := by
  have h := (rewriteLocation_host_port "10.0.0.1".data
      { scheme := "http".data, host := "192.168.1.1:5000".data,
        path := "/desc.xml".data }).1
    "192.168.1.1".data "5000".data (by decide) (by decide) (by decide)
  exact ⟨by rw [h.1]; decide, h.2⟩

/-- C10: when the location's host contains two or more colons (for example a
bracketed IPv6 literal with port), the string the code takes as the port is
the segment between the first and the second colon, not the text after the
last colon, and the rewritten host joins the probed host with that
segment. -/
theorem rewriteLocation_multi_colon (probed a b rest : List Char) (loc : URL)
    (hhost : loc.host = a ++ ':' :: (b ++ ':' :: rest))
    (ha : ':' ∉ a) (hb : ':' ∉ b) :
    (rewriteLocation probed loc).host = probed ++ ':' :: b := by
  have hmem : ':' ∈ loc.host := by rw [hhost]; simp
  rw [rewriteLocation, if_pos hmem, hhost, splitOnChar_append _ ha, splitOnChar_append _ hb]
  rfl

/-- Witness for C10: location host "[2001:db8::1]:8080" yields "db8" as the
extracted "port", so the rewritten host is "10.0.0.1:db8". -/
theorem rewriteLocation_multi_colon_witness :
    (rewriteLocation "10.0.0.1".data
        { scheme := "http".data, host := "[2001:db8::1]:8080".data,
          path := "/desc.xml".data }).host = "10.0.0.1:db8".data := by
  have h := rewriteLocation_multi_colon "10.0.0.1".data
      "[2001".data "db8".data ":1]:8080".data
      { scheme := "http".data, host := "[2001:db8::1]:8080".data,
        path := "/desc.xml".data }
      (by decide) (by decide) (by decide)
  rw [h]; decide

/-! Lemmas about `filterResponses`. -/

theorem filterResponses_sublist (l : List DiscoveryResponse) (seen : List (List Char)) :
    (filterResponses l seen).Sublist l := by
  induction l generalizing seen with
  | nil => simp [filterResponses]
  | cons r rs ih =>
    rw [filterResponses]
    split
    · exact (ih seen).cons r
    · split
      · exact (ih seen).cons r
      · split
        · exact (ih seen).cons r
        · exact (ih _).cons₂ r

theorem filterResponses_key_not_seen (l : List DiscoveryResponse) (seen : List (List Char)) :
    ∀ r ∈ filterResponses l seen, ∃ k, keyOf r = some k ∧ k ∉ seen := by
  induction l generalizing seen with
  | nil => simp [filterResponses]
  | cons r rs ih =>
    rw [filterResponses]
    split
    · exact ih seen
    · rename_i hs
      rw [not_not] at hs
      split
      · exact ih seen
      · rename_i loc hloc
        split
        · exact ih seen
        · rename_i hnot
          intro x hx
          rcases List.mem_cons.mp hx with hx | hx
          · subst hx
            exact ⟨dedupKey loc x.usn, by simp [keyOf, hs, hloc], hnot⟩
          · obtain ⟨k, hk, hkseen⟩ := ih _ x hx
            exact ⟨k, hk, fun hmem => hkseen (List.mem_cons_of_mem _ hmem)⟩

theorem filterResponses_keys_nodup (l : List DiscoveryResponse) (seen : List (List Char)) :
    ((filterResponses l seen).map keyOf).Nodup := by
  induction l generalizing seen with
  | nil => simp [filterResponses]
  | cons r rs ih =>
    rw [filterResponses]
    split
    · exact ih seen
    · rename_i hs
      rw [not_not] at hs
      split
      · exact ih seen
      · rename_i loc hloc
        split
        · exact ih seen
        · rename_i hnot
          rw [List.map_cons, List.nodup_cons]
          refine ⟨?_, ih _⟩
          intro hmem
          rw [List.mem_map] at hmem
          obtain ⟨x, hx, hkx⟩ := hmem
          obtain ⟨k, hk, hkseen⟩ := filterResponses_key_not_seen rs _ x hx
          rw [hk] at hkx
          have hdk : dedupKey loc r.usn = k := by
            have h2 := hkx.symm
            rw [keyOf, if_pos hs, hloc] at h2
            simpa using h2
          exact hkseen (by rw [← hdk]; exact List.mem_cons_self _ _)

theorem filterResponses_first_mem (r : DiscoveryResponse) (k : List Char)
    (hk : keyOf r = some k) :
    ∀ (pre : List DiscoveryResponse) (post : List DiscoveryResponse)
      (seen : List (List Char)), k ∉ seen → (∀ x ∈ pre, keyOf x ≠ some k) →
      r ∈ filterResponses (pre ++ r :: post) seen := by
  have hs : r.statusCode = 200 := by
    by_contra hs
    rw [keyOf, if_neg hs] at hk
    exact Option.noConfusion hk
  obtain ⟨loc, hloc, hkey⟩ : ∃ loc, r.location = some loc ∧ dedupKey loc r.usn = k := by
    rcases hl : r.location with _ | loc
    · rw [keyOf, if_pos hs, hl] at hk
      exact Option.noConfusion hk
    · rw [keyOf, if_pos hs, hl] at hk
      exact ⟨loc, rfl, by simpa using hk⟩
  intro pre
  induction pre with
  | nil =>
    intro post seen hseen _
    rw [List.nil_append, filterResponses, if_neg (by simp [hs]), hloc]
    simp only
    rw [hkey, if_neg hseen]
    exact List.mem_cons_self _ _
  | cons x pre ih =>
    intro post seen hseen hpre
    have hxk : keyOf x ≠ some k := hpre x (List.mem_cons_self _ _)
    have hpre' : ∀ y ∈ pre, keyOf y ≠ some k := fun y hy => hpre y (List.mem_cons_of_mem _ hy)
    rw [List.cons_append, filterResponses]
    split
    · exact ih post seen hseen hpre'
    · rename_i hxs
      rw [not_not] at hxs
      split
      · exact ih post seen hseen hpre'
      · rename_i xloc hxloc
        split
        · exact ih post seen hseen hpre'
        · refine List.mem_cons_of_mem _ (ih post _ ?_ hpre')
          intro hmem
          rcases List.mem_cons.mp hmem with hmem | hmem
          · exact hxk (by rw [keyOf, if_pos hxs, hxloc, hmem]; rfl)
          · exact hseen hmem

theorem filterResponses_all_bad {l : List DiscoveryResponse}
    (h : ∀ r ∈ l, r.statusCode ≠ 200 ∨ r.location = none) (seen : List (List Char)) :
    filterResponses l seen = [] := by
  induction l generalizing seen with
  | nil => rfl
  | cons r rs ih =>
    have hrs : ∀ x ∈ rs, x.statusCode ≠ 200 ∨ x.location = none :=
      fun x hx => h x (List.mem_cons_of_mem _ hx)
    rcases h r (List.mem_cons_self _ _) with hr | hr
    · rw [filterResponses, if_pos hr]
      exact ih hrs seen
    · by_cases hs : r.statusCode ≠ 200
      · rw [filterResponses, if_pos hs]
        exact ih hrs seen
      · rw [filterResponses, if_neg hs, hr]
        exact ih hrs seen

/-- C3: deduplication.  The filtered result is a subsequence of the input
(arrival order preserved among retained responses), no two retained
responses share a dedup key, the first passing response carrying a given key
is always retained, and two passing responses with identical non-empty USN
headers carry the same key — so of two such responses only the first is
retained. -/
theorem dedup_first_seen (l : List DiscoveryResponse) :
    (filterResponses l []).Sublist l ∧
    ((filterResponses l []).map keyOf).Nodup ∧
    (∀ pre r post, l = pre ++ r :: post → ∀ k, keyOf r = some k →
      (∀ x ∈ pre, keyOf x ≠ some k) → r ∈ filterResponses l []) ∧
    (∀ r₁ r₂ : DiscoveryResponse, r₁.statusCode = 200 → r₂.statusCode = 200 →
      r₁.location.isSome → r₂.location.isSome → r₁.usn ≠ [] → r₁.usn = r₂.usn →
      ∃ k, keyOf r₁ = some k ∧ keyOf r₂ = some k) := by
  refine ⟨filterResponses_sublist l [], filterResponses_keys_nodup l [], ?_, ?_⟩
  · intro pre r post hl k hk hpre
    rw [hl]
    exact filterResponses_first_mem r k hk pre post [] (by simp) hpre
  · intro r₁ r₂ h1 h2 hl1 hl2 hu husn
    obtain ⟨loc₁, hloc₁⟩ := Option.isSome_iff_exists.mp hl1
    obtain ⟨loc₂, hloc₂⟩ := Option.isSome_iff_exists.mp hl2
    refine ⟨r₁.usn, ?_, ?_⟩
    · rw [keyOf, if_pos h1, hloc₁]
      simp [dedupKey, hu]
    · rw [keyOf, if_pos h2, hloc₂]
      simp [dedupKey, ← husn, hu]

/-- Witness for C3: two passing responses with the same non-empty USN but
different advertised locations; the first is retained. -/
theorem dedup_first_seen_witness :
    ({ statusCode := 200,
       location := some ⟨"http".data, "192.168.1.1:5000".data, "/desc.xml".data⟩,
       usn := "uuid:gw1".data } : DiscoveryResponse) ∈
      filterResponses
        [{ statusCode := 200,
           location := some ⟨"http".data, "192.168.1.1:5000".data, "/desc.xml".data⟩,
           usn := "uuid:gw1".data },
         { statusCode := 200,
           location := some ⟨"http".data, "10.0.0.138:2869".data, "/dev.xml".data⟩,
           usn := "uuid:gw1".data }] [] :=
  (dedup_first_seen _).2.2.1 []
    { statusCode := 200,
      location := some ⟨"http".data, "192.168.1.1:5000".data, "/desc.xml".data⟩,
      usn := "uuid:gw1".data }
    [{ statusCode := 200,
       location := some ⟨"http".data, "10.0.0.138:2869".data, "/dev.xml".data⟩,
       usn := "uuid:gw1".data }]
    rfl "uuid:gw1".data (by decide) (by simp)

/-- C4: fallback key.  A response that passes the status filter, whose
location parses, and whose USN header is empty or missing is not dropped:
its dedup key is the rendered location string, and it is retained whenever
no earlier response passes with that key. -/
theorem fallback_key (r : DiscoveryResponse) (loc : URL)
    (hs : r.statusCode = 200) (hloc : r.location = some loc) (husn : r.usn = []) :
    keyOf r = some loc.render ∧
    ∀ pre post, (∀ x ∈ pre, keyOf x ≠ some loc.render) →
      r ∈ filterResponses (pre ++ r :: post) [] := by
  have hk : keyOf r = some loc.render := by
    rw [keyOf, if_pos hs, hloc]
    simp [dedupKey, husn]
  exact ⟨hk, fun pre post hpre =>
    filterResponses_first_mem r loc.render hk pre post [] (by simp) hpre⟩

/-- Witness for C4: a concrete empty-USN response is keyed by its location
string and retained. -/
theorem fallback_key_witness :
    keyOf { statusCode := 200,
            location := some ⟨"http".data, "192.168.1.1:5000".data, "/desc.xml".data⟩,
            usn := [] } =
      some (URL.render ⟨"http".data, "192.168.1.1:5000".data, "/desc.xml".data⟩) ∧
    ({ statusCode := 200,
       location := some ⟨"http".data, "192.168.1.1:5000".data, "/desc.xml".data⟩,
       usn := [] } : DiscoveryResponse) ∈
      filterResponses
        [{ statusCode := 200,
           location := some ⟨"http".data, "192.168.1.1:5000".data, "/desc.xml".data⟩,
           usn := [] }] [] := by
  have h := fallback_key
    { statusCode := 200,
      location := some ⟨"http".data, "192.168.1.1:5000".data, "/desc.xml".data⟩,
      usn := [] }
    ⟨"http".data, "192.168.1.1:5000".data, "/desc.xml".data⟩ rfl rfl rfl
  exact ⟨h.1, h.2 [] [] (by simp)⟩

/-- C5 as stated is false: a response whose USN header is empty or missing
is not skipped.  Concrete input: one response with status 200, a parsable
location, and no USN — the filter retains it. -/
theorem missing_usn_not_skipped :
    filterResponses
      [{ statusCode := 200,
         location := some ⟨"http".data, "192.168.1.1:5000".data, "/desc.xml".data⟩,
         usn := [] }] [] =
    [{ statusCode := 200,
       location := some ⟨"http".data, "192.168.1.1:5000".data, "/desc.xml".data⟩,
       usn := [] }] := by
  decide

/-- C5 amended: per-response anomalies are non-fatal, and the remaining
responses keep being processed.  A response with a non-success status, or
one without a usable location, is logged and skipped — filtering of the
remaining responses continues unchanged.  A response with an empty/missing
USN is logged but retained (keyed by its rendered location string) rather
than skipped, and filtering continues with the remaining responses. -/
theorem anomalies_nonfatal (r : DiscoveryResponse) (rs : List DiscoveryResponse)
    (seen : List (List Char)) :
    (r.statusCode ≠ 200 → filterResponses (r :: rs) seen = filterResponses rs seen) ∧
    (r.location = none → filterResponses (r :: rs) seen = filterResponses rs seen) ∧
    (∀ loc, r.statusCode = 200 → r.location = some loc → r.usn = [] →
      loc.render ∉ seen →
      filterResponses (r :: rs) seen = r :: filterResponses rs (loc.render :: seen)) := by
  refine ⟨?_, ?_, ?_⟩
  · intro hs
    rw [filterResponses, if_pos hs]
  · intro hl
    by_cases hs : r.statusCode ≠ 200
    · rw [filterResponses, if_pos hs]
    · rw [filterResponses, if_neg hs, hl]
  · intro loc hs hloc husn hnot
    have hdk : dedupKey loc r.usn = loc.render := by
      simp [dedupKey, husn]
    rw [filterResponses, if_neg (by simp [hs]), hloc]
    show (if dedupKey loc r.usn ∈ seen then filterResponses rs seen
        else r :: filterResponses rs (dedupKey loc r.usn :: seen)) =
      r :: filterResponses rs (loc.render :: seen)
    rw [hdk, if_neg hnot]

/-- Witness for the amended C5, at concrete responses: a 404 response and a
location-less response are skipped, an empty-USN response is retained with
its location string as key. -/
theorem anomalies_nonfatal_witness :
    filterResponses [{ statusCode := 404, location := none, usn := [] }] [] =
      filterResponses [] [] ∧
    filterResponses [{ statusCode := 200, location := none, usn := [] }] [] =
      filterResponses [] [] ∧
    filterResponses
        [{ statusCode := 200,
           location := some ⟨"http".data, "192.168.1.1:5000".data, "/desc.xml".data⟩,
           usn := [] }] [] =
      { statusCode := 200,
        location := some ⟨"http".data, "192.168.1.1:5000".data, "/desc.xml".data⟩,
        usn := [] } ::
        filterResponses []
          [URL.render ⟨"http".data, "192.168.1.1:5000".data, "/desc.xml".data⟩] :=
  ⟨(anomalies_nonfatal _ [] []).1 (by decide),
   (anomalies_nonfatal _ [] []).2.1 rfl,
   (anomalies_nonfatal _ [] []).2.2 ⟨"http".data, "192.168.1.1:5000".data, "/desc.xml".data⟩
     rfl rfl rfl (by simp)⟩

/-- C6: when every response is filtered out — in particular whenever each
response has a non-success status or an unusable location — selection fails
with the "no response available" error (the source spells it "avaiable")
instead of returning a zero-value location; a response is returned exactly
when at least one survives filtering, and then it is the first retained
one. -/
theorem empty_filter_is_error (l : List DiscoveryResponse) :
    ((∀ r ∈ l, r.statusCode ≠ 200 ∨ r.location = none) →
      ssdpSelect l = .error "No SSDP response avaiable".data) ∧
    (filterResponses l [] = [] →
      ssdpSelect l = .error "No SSDP response avaiable".data) ∧
    (∀ r rest, filterResponses l [] = r :: rest → ssdpSelect l = .ok r) := by
  refine ⟨?_, ?_, ?_⟩
  · intro h
    rw [ssdpSelect, filterResponses_all_bad h []]
  · intro h
    rw [ssdpSelect, h]
  · intro r rest h
    rw [ssdpSelect, h]

/-- Witness for C6: a list whose two responses both fail the filters yields
the error; a list with one passing response yields that response. -/
theorem empty_filter_is_error_witness :
    ssdpSelect [{ statusCode := 404, location := none, usn := [] },
                { statusCode := 200, location := none, usn := "uuid:gw1".data }] =
      .error "No SSDP response avaiable".data ∧
    ssdpSelect [{ statusCode := 200,
                  location := some ⟨"http".data, "192.168.1.1:5000".data, "/desc.xml".data⟩,
                  usn := "uuid:gw1".data }] =
      .ok { statusCode := 200,
            location := some ⟨"http".data, "192.168.1.1:5000".data, "/desc.xml".data⟩,
            usn := "uuid:gw1".data } :=
  ⟨(empty_filter_is_error _).1 (by decide),
   (empty_filter_is_error _).2.2 _ [] (by decide)⟩

/-- C7: the discovery probe is an M-SEARCH request with opaque URI "*",
carrying exactly the headers HOST (the probed host:port), MAN
"ssdp:discover", MX "5" and ST "upnp:rootdevice" with their exact
case-sensitive names, sent exactly 2 times over a collection window of
5 seconds plus 100 milliseconds. -/
theorem discovery_wire_behavior (host port : List Char) :
    (searchRequest (probeAddress host port)).method = "M-SEARCH".data ∧
    (searchRequest (probeAddress host port)).starURI = "*".data ∧
    (searchRequest (probeAddress host port)).host = host ++ port ∧
    (searchRequest (probeAddress host port)).headers =
      [("HOST".data, host ++ port),
       ("MX".data, "5".data),
       ("MAN".data, "ssdp:discover".data),
       ("ST".data, "upnp:rootdevice".data)] ∧
    searchNumSends = 2 ∧
    searchTimeoutMs = 5 * 1000 + 100 := by
  have h5 : (Nat.repr maxWaitSeconds).data = "5".data := by decide
  refine ⟨rfl, rfl, rfl, ?_, rfl, rfl⟩
  rw [searchRequest]
  simp [probeAddress, ssdpDiscover, searchTarget, h5]

/-- C8: encoding never fails in the unsigned 16-bit range — for every such
index the marshaller returns the decimal payload, and `portMappingByIdx`
always reaches the RPC call; its encoding-failure branch is unreachable. -/
theorem marshal_ui2_total (index : Nat) (h : index < 65536) :
    MarshalUi2 index = .ok (Nat.repr index).data ∧
    ∀ perform, portMappingByIdx perform index =
      perform { NewPortMappingIndex := (Nat.repr index).data } := by
  have hm : MarshalUi2 index = .ok (Nat.repr index).data := by
    rw [MarshalUi2, if_pos h]
  refine ⟨hm, fun perform => ?_⟩
  rw [portMappingByIdx, hm]

/-- Witness for C8 at the largest unsigned 16-bit index. -/
theorem marshal_ui2_total_witness :
    MarshalUi2 65535 = .ok (Nat.repr 65535).data ∧
    portMappingByIdx (fun req => Except.error req.NewPortMappingIndex) 65535 =
      .error (Nat.repr 65535).data := by
  have h := marshal_ui2_total 65535 (by decide)
  exact ⟨h.1, by rw [h.2 (fun req => Except.error req.NewPortMappingIndex)]⟩

/-- C9: index-to-request marshalling is a deterministic function of the
index — any two runs of the encoder (building the single-field request
record from the index) on equal input produce equal encoded request
payloads. -/
theorem marshal_deterministic (index : Nat)
    (o₁ o₂ : Except (List Char) portMappingRequest)
    (h₁ : o₁ = (MarshalUi2 index).map portMappingRequest.mk)
    (h₂ : o₂ = (MarshalUi2 index).map portMappingRequest.mk) :
    o₁ = o₂ :=
  h₁.trans h₂.symm

/-- Witness for C9: two runs at index 7. -/
theorem marshal_deterministic_witness :
    (MarshalUi2 7).map portMappingRequest.mk = (MarshalUi2 7).map portMappingRequest.mk :=
  marshal_deterministic 7 _ _ rfl rfl

theorem enumLoop_spec (query : Nat → Except (List Char) PortMappingEntry)
    (entries : Nat → PortMappingEntry) (e : List Char) (K : Nat)
    (hok : ∀ j, j < K → query j = .ok (entries j))
    (herr : query K = .error e) :
    ∀ fuel i, i ≤ K →
      enumLoop query i fuel =
        if i + fuel ≤ K then ((List.range' i fuel).map entries, none)
        else ((List.range' i (K - i)).map entries, some e) := by
  intro fuel
  induction fuel with
  | zero =>
    intro i hi
    rw [enumLoop, if_pos (by omega)]
    simp
  | succ fuel ih =>
    intro i hi
    rcases Nat.lt_or_ge i K with hlt | hge
    · rw [enumLoop]
      simp only [hok i hlt]
      rw [ih (i + 1) hlt]
      by_cases hb : i + (fuel + 1) ≤ K
      · rw [if_pos (by omega), if_pos hb, List.range'_succ]
        simp
      · rw [if_neg (by omega), if_neg hb]
        have hKi : K - i = (K - (i + 1)) + 1 := by omega
        rw [hKi, List.range'_succ]
        simp
    · have hik : i = K := Nat.le_antisymm hi hge
      subst hik
      rw [enumLoop]
      simp only [herr]
      rw [if_neg (by omega)]
      simp

/-- C2 amended: for a connection with exactly K valid indices 0..K-1 and an
RPC error at index K, the loop queries ascending indices from 0 and, when
K < 50, yields exactly the entries at indices 0..K-1 in order before
stopping fatally on the first error (the one at index K); when K ≥ 50 it
yields exactly the entries at indices 0..49 and stops at the fixed loop
bound of 50 without having met an error. -/
theorem enumeration_order (perform : portMappingRequest → Except (List Char) PortMappingEntry)
    (entries : Nat → PortMappingEntry) (e : List Char) (K : Nat)
    (hok : ∀ j, j < K → portMappingByIdx perform j = .ok (entries j))
    (herr : portMappingByIdx perform K = .error e) :
    mainEnumerate perform =
      if K < 50 then ((List.range K).map entries, some e)
      else ((List.range 50).map entries, none) := by
  rw [mainEnumerate,
    enumLoop_spec (fun i => portMappingByIdx perform i) entries e K hok herr 50 0 (Nat.zero_le K)]
  by_cases h : K < 50
  · rw [if_neg (by omega), if_pos h, List.range_eq_range']
    simp
  · rw [if_pos (by omega), if_neg h, List.range_eq_range']

/-- The table entry a faithful K-entry gateway reports at index `j` in the
concrete checks below. -/
def tableEntry (j : Nat) : PortMappingEntry :=
  { NewRemoteHost := []
    NewExternalPort := (Nat.repr j).data
    NewProtocol := "TCP".data
    NewInternalPort := (Nat.repr j).data
    NewInternalClient := "192.168.1.2".data
    NewEnabled := "1".data
    NewPortMappingDescription := []
    NewLeaseDuration := "0".data }

/-- A SOAP transport whose port-mapping table holds exactly 100 valid
indices: it answers for the encoded indices "0".."99" (decimal strings of at
most two characters) and faults on any other request. -/
def perform100 : portMappingRequest → Except (List Char) PortMappingEntry :=
  fun req =>
    if req.NewPortMappingIndex.length ≤ 2 then
      .ok { NewRemoteHost := []
            NewExternalPort := req.NewPortMappingIndex
            NewProtocol := "TCP".data
            NewInternalPort := req.NewPortMappingIndex
            NewInternalClient := "192.168.1.2".data
            NewEnabled := "1".data
            NewPortMappingDescription := []
            NewLeaseDuration := "0".data }
    else .error "SOAP fault".data

/-- C2 as stated is false: against a connection whose table has exactly
K = 100 valid indices 0..99 followed by an error at index 100, the loop does
not yield the entries at indices 0..99 — it stops at its fixed bound of 50. -/
theorem enumeration_order_counterexample :
    (∀ j, j < 100 → portMappingByIdx perform100 j = .ok (tableEntry j)) ∧
    portMappingByIdx perform100 100 = .error "SOAP fault".data ∧
    (mainEnumerate perform100).1 ≠ (List.range 100).map tableEntry := by
  refine ⟨by decide, by decide, by decide⟩

/-- Witness for the amended C2: the same 100-entry connection yields exactly
the entries at indices 0..49 with no error reported. -/
theorem enumeration_order_witness :
    mainEnumerate perform100 = ((List.range 50).map tableEntry, none) := by
  have h := enumeration_order perform100 tableEntry "SOAP fault".data 100
    (by decide) (by decide)
  rw [if_neg (by omega)] at h
  exact h
